import Mathlib

/-!
# pulumiconfig — verification of the resolution/merge/validation engine

Shallow embedding of the `pulumiconfig` Go package: the per-field config
resolution of `GetConfig` (src/pkg/pulumiconfig/pulumiconfig.go), the
structural merger `mergeObjects`/`mergeFields` (src/unnamed/part_000), the
cloner `CloneStruct`, and the built-in `default`/`env` validation rules
(src/pkg/pulumiconfig/validators.go).

Go `reflect.Value`s are embedded as the inductive `Value` below; the kinds
covered are the ones the package's switch statements handle and the ones its
tests exercise (bool, the signed-integer family, the unsigned family,
floating point, string, pointer, struct). Machine floating point is embedded
as an exact rational payload: none of the verified properties depend on
rounding, only on "zero for its type" tests, parse success/failure and
assignment. A struct field carries the `CanSet` capability of the
corresponding `reflect` field (true exactly for exported fields, since every
value the package walks is addressable).
-/

mutual

/-- A Go value as seen through `reflect`, restricted to the kinds the
package manipulates. `vPtr` holds an optional heap address (`none` = nil). -/
inductive Value where
  | vBool (b : Bool)
  | vInt (n : Int)
  | vUint (n : Nat)
  | vFloat (q : Rat)
  | vString (s : String)
  | vPtr (a : Option Nat)
  | vStruct (fs : Fields)
  deriving DecidableEq

/-- The ordered fields of a struct value: each with its `CanSet` capability
(true for exported fields) and its value. -/
inductive Fields where
  | nil
  | cons (settable : Bool) (v : Value) (rest : Fields)
  deriving DecidableEq

end

mutual

/-- `isZeroValue` (src/unnamed/part_000:81-84 and validators.go:313-316):
`reflect.DeepEqual(v.Interface(), reflect.Zero(v.Type()).Interface())`. -/
def Value.isZero : Value → Bool
  | .vBool b => !b
  | .vInt n => n == 0
  | .vUint n => n == 0
  | .vFloat q => q == 0
  | .vString s => s == ""
  | .vPtr a => a.isNone
  | .vStruct fs => fs.isZero

/-- Deep-equality of a field list with the zero value of its type. -/
def Fields.isZero : Fields → Bool
  | .nil => true
  | .cons _ v rest => v.isZero && rest.isZero

end

mutual

/-- `reflect.Zero(v.Type())` / `reflect.New(typ).Elem()`: the zero value of
a value's type. -/
def Value.zeroOf : Value → Value
  | .vBool _ => .vBool false
  | .vInt _ => .vInt 0
  | .vUint _ => .vUint 0
  | .vFloat _ => .vFloat 0
  | .vString _ => .vString ""
  | .vPtr _ => .vPtr none
  | .vStruct fs => .vStruct fs.zeroOf

/-- Zero value of each field of a struct type. -/
def Fields.zeroOf : Fields → Fields
  | .nil => .nil
  | .cons s v rest => .cons s v.zeroOf rest.zeroOf

end

mutual

/-- Equality of Go (structural) types of two values: `reflect.TypeOf(x) ==
reflect.TypeOf(y)` for the value universe above. -/
def Value.sameType : Value → Value → Bool
  | .vBool _, .vBool _ => true
  | .vInt _, .vInt _ => true
  | .vUint _, .vUint _ => true
  | .vFloat _, .vFloat _ => true
  | .vString _, .vString _ => true
  | .vPtr _, .vPtr _ => true
  | .vStruct fs, .vStruct gs => fs.sameTypes gs
  | _, _ => false

/-- Field-wise type equality of two struct types (same `CanSet` capability
and same field types, in order). -/
def Fields.sameTypes : Fields → Fields → Bool
  | .nil, .nil => true
  | .cons s1 v1 t1, .cons s2 v2 t2 => s1 == s2 && v1.sameType v2 && t1.sameTypes t2
  | _, _ => false

end

/-! ## String → number parsing (validators.go: `string2Number` and the
`strconv` calls it wraps)

`strconv.ParseInt(s, 10, 64)` / `ParseUint(s, 10, 64)` are embedded exactly
on their decimal grammar (optional sign for the signed form, none for the
unsigned form, one or more ASCII digits, 64-bit range check).
`strconv.ParseFloat(s, 64)` is embedded on its plain-decimal fragment
(optional sign, digits, optional fractional part) with an exact rational
result; the exponent/hex/inf/nan forms and IEEE rounding are abstracted away
— no verified property depends on which strings parse as floats, only on
parse success leading to assignment and parse failure falling through. -/

/-- One or more ASCII decimal digits, as a natural number. -/
def parseDigits : List Char → Option Nat
  | [] => none
  | cs =>
    cs.foldl
      (fun acc c =>
        acc.bind fun n => if c.isDigit then some (n * 10 + (c.toNat - 48)) else none)
      (some 0)

/-- `strconv.ParseInt(s, 10, 64)`: optional `+`/`-` sign, digits, and the
int64 range check (out-of-range input is an error). -/
def parseInt64 (s : String) : Option Int :=
  match s.toList with
  | '+' :: rest => (parseDigits rest).bind fun n =>
      if n ≤ 2 ^ 63 - 1 then some (n : Int) else none
  | '-' :: rest => (parseDigits rest).bind fun n =>
      if n ≤ 2 ^ 63 then some (-(n : Int)) else none
  | cs => (parseDigits cs).bind fun n =>
      if n ≤ 2 ^ 63 - 1 then some (n : Int) else none

/-- `strconv.ParseUint(s, 10, 64)`: digits only (no sign permitted), with
the uint64 range check. -/
def parseUint64 (s : String) : Option Nat :=
  (parseDigits s.toList).bind fun n => if n < 2 ^ 64 then some n else none

/-- Digits after the decimal point, as an exact rational in `[0, 1)`. -/
def parseFrac (cs : List Char) : Option Rat :=
  (parseDigits cs).map fun n => (n : Rat) / ((10 : Rat) ^ cs.length)

/-- `strconv.ParseFloat(s, 64)` on its plain-decimal fragment: optional
sign, integer part, optional `.` and fractional part (at least one of the
two parts non-empty). -/
def parseFloat64 (s : String) : Option Rat :=
  let signed : Bool × List Char :=
    match s.toList with
    | '-' :: rest => (true, rest)
    | '+' :: rest => (false, rest)
    | cs => (false, cs)
  let intPart := signed.2.takeWhile Char.isDigit
  let rest := signed.2.dropWhile Char.isDigit
  let mag : Option Rat :=
    match rest with
    | [] => (parseDigits intPart).map (fun n => (n : Rat))
    | '.' :: fr =>
      if intPart.isEmpty then parseFrac fr
      else (parseDigits intPart).bind fun n => (parseFrac fr).map fun f => (n : Rat) + f
    | _ => none
  mag.map fun q => if signed.1 then -q else q

/-- `strconv.ParseBool`: exactly the twelve literals Go accepts. -/
def parseBool (s : String) : Option Bool :=
  if s = "1" ∨ s = "t" ∨ s = "T" ∨ s = "TRUE" ∨ s = "true" ∨ s = "True" then some true
  else if s = "0" ∨ s = "f" ∨ s = "F" ∨ s = "FALSE" ∨ s = "false" ∨ s = "False" then
    some false
  else none

/-- The `ConvertType` of validators.go:22-28. -/
inductive ConvertType where
  | int64
  | uint64
  | float64
  deriving DecidableEq

/-- The numeric result `string2Number` boxes in its `interface{}`. -/
inductive NumVal where
  | i (n : Int)
  | u (n : Nat)
  | f (q : Rat)
  deriving DecidableEq

/-- `string2Number` (validators.go:161-173): dispatch to the `strconv`
parser for the requested type; `none` stands for a non-nil error. -/
def string2Number (s : String) (t : ConvertType) : Option NumVal :=
  match t with
  | .int64 => (parseInt64 s).map NumVal.i
  | .uint64 => (parseUint64 s).map NumVal.u
  | .float64 => (parseFloat64 s).map NumVal.f

/-! ## The built-in `default` and `env` field rules (validators.go) -/

/-- `defaultSetter` (validators.go:192-265): returns the field after the
rule ran (the rule mutates `fl.Field()` in place) and the rule's boolean
verdict. Kinds the `Value` universe lacks (chan, func, map, …) all take the
same `return true` branch as the ones present. -/
def defaultSetter (defaultValue : String) (field : Value) : Value × Bool :=
  if defaultValue = "" then (field, true)
  else
    match field with
    | .vBool _ => (field, true)
    | .vInt n =>
      if n = 0 then
        match string2Number defaultValue .int64 with
        | some (.i d) => (.vInt d, true)
        | _ => (field, false)
      else (field, true)
    | .vUint n =>
      if n = 0 then
        match string2Number defaultValue .uint64 with
        | some (.u d) => (.vUint d, true)
        | _ => (field, false)
      else (field, true)
    | .vFloat q =>
      if q = 0 then
        match string2Number defaultValue .float64 with
        | some (.f d) => (.vFloat d, true)
        | _ => (field, false)
      else (field, true)
    | .vString s => if s = "" then (.vString defaultValue, true) else (field, true)
    | .vPtr _ => (field, true)
    | .vStruct _ => (field, true)

/-- `envLoader` (validators.go:268-310): returns the field after the rule
ran and its (always-true) verdict. `lookupEnv` embeds `os.LookupEnv`;
`canSet` is the field's `CanSet` capability. -/
def envLoader (envVar : String) (lookupEnv : String → Option String) (canSet : Bool)
    (field : Value) : Value × Bool :=
  if envVar = "" then (field, true)
  else if !canSet then (field, true)
  else if !field.isZero then (field, true)
  else
    match lookupEnv envVar with
    | none => (field, true)
    | some val =>
      if val = "" then (field, true)
      else
        match field with
        | .vString _ => (.vString val, true)
        | .vInt _ =>
          match string2Number val .int64 with
          | some (.i d) => (.vInt d, true)
          | _ => (field, true)
        | .vUint _ =>
          match string2Number val .uint64 with
          | some (.u d) => (.vUint d, true)
          | _ => (field, true)
        | .vFloat _ =>
          match string2Number val .float64 with
          | some (.f d) => (.vFloat d, true)
          | _ => (field, true)
        | .vBool _ =>
          match parseBool val with
          | some b => (.vBool b, true)
          | none => (field, true)
        | _ => (field, true)

/-- A field declared `validate:"default=…,env=…"` runs the two built-in
rules in that order (the validator executes a field's tags left to right;
`GetValidations`, validators.go:176-188, registers both). -/
def runBuiltinRules (defaultValue : String) (envVar : String)
    (lookupEnv : String → Option String) (canSet : Bool) (field : Value) : Value :=
  (envLoader envVar lookupEnv canSet (defaultSetter defaultValue field).1).1

/-! ## The structural merger (src/unnamed/part_000) -/

/-- The error values of src/unnamed/part_000:9-15, plus `panicNonStruct`,
which stands for the runtime panic `reflect.Value.NumField` raises when
`mergeFields` is reached with non-struct operands (the Go code does not
guard against it; no verified property goes through that case). -/
inductive MergeErr where
  | nilObjects
  | differentTypes
  | nonPointer
  | mismatchedFields
  | fieldNotSettable (i : Nat)
  | panicNonStruct
  | notSupported
  deriving DecidableEq

mutual

/-- `mergeFields` (src/unnamed/part_000:47-79): type-check the three
operands, then merge field by field into the destination. The destination
`newVal` is the freshly allocated zero value the caller passes; the function
returns its final contents. -/
def mergeFields (val1 val2 newVal : Value) : Except MergeErr Value :=
  if !(val1.sameType val2 && val1.sameType newVal) then .error .mismatchedFields
  else
    match val1, val2, newVal with
    | .vStruct fs1, .vStruct fs2, .vStruct nfs =>
      Except.map Value.vStruct (mergeFieldList 0 fs1 fs2 nfs)
    | _, _, _ => .error .panicNonStruct

/-- The loop of src/unnamed/part_000:52-77, with `i` the running field
index: a non-settable destination field aborts with `ErrFieldNotSettable`;
a struct field merges recursively into a fresh zero value; any other field
takes `val2`'s value when it is non-zero, else `val1`'s. -/
def mergeFieldList (i : Nat) : Fields → Fields → Fields → Except MergeErr Fields
  | .nil, .nil, .nil => .ok .nil
  | .cons s1 f1 t1, .cons _ f2 t2, .cons ns _ t3 =>
    if !ns then .error (.fieldNotSettable i)
    else
      match f1 with
      | .vStruct _ =>
        (mergeFields f1 f2 f1.zeroOf).bind fun m =>
          Except.map (Fields.cons s1 m) (mergeFieldList (i + 1) t1 t2 t3)
      | _ =>
        Except.map (Fields.cons s1 (if !f2.isZero then f2 else f1))
          (mergeFieldList (i + 1) t1 t2 t3)
  | _, _, _ => .error .mismatchedFields

end

/-- What a Go `interface{}` argument of `mergeObjects` wraps once non-nil:
a pointer to a value, or a non-pointer value. -/
inductive Iface where
  | ptrTo (v : Value)
  | val (v : Value)
  deriving DecidableEq

/-- `reflect.TypeOf` equality on two non-nil interface values: pointer-ness
is part of the type. -/
def Iface.sameType : Iface → Iface → Bool
  | .ptrTo v1, .ptrTo v2 => v1.sameType v2
  | .val v1, .val v2 => v1.sameType v2
  | _, _ => false

/-- `mergeObjects` (src/unnamed/part_000:17-45): nil check, type check,
pointer-kind check, then allocate a fresh zero value of the pointee type and
run `mergeFields` into it. `none` embeds a nil `interface{}` argument. The
result is the pointee of the returned fresh allocation (its heap behaviour
is the subject of `mergeObjectsH` below). -/
def mergeObjects (obj1 obj2 : Option Iface) : Except MergeErr Value :=
  match obj1, obj2 with
  | some i1, some i2 =>
    if !i1.sameType i2 then .error .differentTypes
    else
      match i1, i2 with
      | .ptrTo v1, .ptrTo v2 => mergeFields v1 v2 v1.zeroOf
      | _, _ => .error .nonPointer
  | _, _ => .error .nilObjects

/-! ### `mergeObjects` on an explicit heap

`mergeObjects` allocates (`reflect.New`) and writes only through `newVal`;
to state that it never mutates its inputs, the pointer arguments are made
explicit: a heap is a list of cells, an argument is a cell address, and the
function returns the updated heap. On a merge error the freshly allocated
scratch cell is left behind unreferenced (its partially written contents are
irrelevant and kept as the zero value). -/

/-- `mergeObjects` as a heap transformer, for two non-nil pointer arguments
`a1`, `a2` (addresses of the pointees). Addresses outside the heap take the
nil-argument branch. -/
def mergeObjectsH (h : List Value) (a1 a2 : Nat) : List Value × Except MergeErr Nat :=
  match h[a1]?, h[a2]? with
  | some v1, some v2 =>
    if !v1.sameType v2 then (h, .error .differentTypes)
    else
      match mergeFields v1 v2 v1.zeroOf with
      | .ok m => (h ++ [m], .ok h.length)
      | .error e => (h ++ [v1.zeroOf], .error e)
  | _, _ => (h, .error .nilObjects)

/-! ## The cloner (pulumiconfig.go:246-262) -/

/-- The per-field copy of `CloneStruct`'s loop: a settable (exported) field
is copied from the source, a non-settable one keeps the fresh zero value. -/
def cloneFields : Fields → Fields
  | .nil => .nil
  | .cons s v t => .cons s (if s then v else v.zeroOf) (cloneFields t)

/-- `CloneStruct` (pulumiconfig.go:246-262): allocate a zero value of the
same type and copy each settable field. The copy is shallow: a pointer field
is copied as the same address. On a non-struct argument the Go code panics
in `NumField`; the fallback branch is never reached by the package (both
call sites pass structs) nor by any theorem below. -/
def CloneStruct : Value → Value
  | .vStruct fs => .vStruct (cloneFields fs)
  | v => v

/-- Field `i` of a struct value. -/
def structField (v : Value) (i : Nat) : Option Value :=
  match v with
  | .vStruct fs => go fs i
  | _ => none
where
  go : Fields → Nat → Option Value
    | .cons _ v _, 0 => some v
    | .cons _ _ t, n + 1 => go t n
    | .nil, _ => none

instance {e a : Type} [DecidableEq e] [DecidableEq a] : DecidableEq (Except e a) :=
  fun x y =>
    match x, y with
    | .ok u, .ok v =>
      if h : u = v then isTrue (by rw [h])
      else isFalse (by intro hc; cases hc; exact h rfl)
    | .error u, .error v =>
      if h : u = v then isTrue (by rw [h])
      else isFalse (by intro hc; cases hc; exact h rfl)
    | .ok _, .error _ => isFalse (by intro hc; cases hc)
    | .error _, .ok _ => isFalse (by intro hc; cases hc)

/-- Field `i` of a struct type/value as `(CanSet, value)`. -/
def Fields.get? : Fields → Nat → Option (Bool × Value)
  | .cons s v _, 0 => some (s, v)
  | .cons _ _ t, n + 1 => Fields.get? t n
  | .nil, _ => none

/-- Dereference a pointer value against a heap. -/
def readPtr (h : List Value) : Value → Option Value
  | .vPtr (some a) => h[a]?
  | _ => none

/-- The Go assignment `*p = x` through a pointer value `p`. -/
def writePtr (h : List Value) (p : Value) (x : Value) : List Value :=
  match p with
  | .vPtr (some a) => h.set a x
  | _ => h

/-! ## The override merge (external `dario.cat/mergo` dependency)

`overwriteFieldFromOverwriteCfg` (pulumiconfig.go:227) calls
`mergo.Merge(dst, src, mergo.WithOverride)` from the external `mergo`
library. Per mergo's documented behaviour: the two arguments must be
same-typed structs (or maps); struct fields merge recursively; any other
destination field is overwritten by the source field exactly when the source
field is non-empty, where mergo's emptiness test agrees with `isZeroValue`
on this value universe. -/

mutual

/-- `mergo.Merge(dst, src, mergo.WithOverride)` on the embedded values
(external-dependency model, see the section comment). -/
def mergoMerge (dst src : Value) : Except MergeErr Value :=
  if !dst.sameType src then .error .differentTypes
  else
    match dst, src with
    | .vStruct fs1, .vStruct fs2 => Except.map Value.vStruct (mergoMergeFields fs1 fs2)
    | _, _ => .error .notSupported

/-- Field-wise `WithOverride` merge: recurse into struct fields, and for
any other field keep the destination only when the source field is empty. -/
def mergoMergeFields : Fields → Fields → Except MergeErr Fields
  | .nil, .nil => .ok .nil
  | .cons s1 f1 t1, .cons _ f2 t2 =>
    match f1, f2 with
    | .vStruct _, .vStruct _ =>
      (mergoMerge f1 f2).bind fun m =>
        Except.map (Fields.cons s1 m) (mergoMergeFields t1 t2)
    | _, _ =>
      Except.map (Fields.cons s1 (if f2.isZero then f1 else f2)) (mergoMergeFields t1 t2)
  | _, _ => .error .differentTypes

end

/-! ## The config resolver (pulumiconfig.go:145-242)

A configuration source is embedded as a map from (namespace, key) to the
value the destination holds after a successful decode: `none` means the key
is absent. A decoded value fully determines the destination; decode errors
of present values are abstracted away (absence is the only read failure). -/

/-- `config.TryObject`'s error when the key is absent. -/
inductive ReadErr where
  | missing
  deriving DecidableEq

/-- `populateFieldFromConfig` (pulumiconfig.go:196-206): a pointer-kinded
field uses `cfg.GetObject`, which leaves the destination untouched and
returns nil when the key is absent; any other field uses `cfg.TryObject`,
which returns an error when the key is absent. -/
def populateFieldFromConfig (store : Option Value) (field : Value) : Except ReadErr Value :=
  match field with
  | .vPtr _ =>
    match store with
    | some v => .ok v
    | none => .ok field
  | _ =>
    match store with
    | some v => .ok v
    | none => .error .missing

/-- The failures `overwriteFieldFromOverwriteCfg` can return: the override
read failed, or the mergo merge failed. `panicClone` stands for the runtime
panic `CloneStruct` raises on a non-struct field (the package only declares
`overrideConfigNamespace` on struct fields; no theorem goes through it). -/
inductive OvErr where
  | readFailed
  | mergeFailed (e : MergeErr)
  | panicClone
  deriving DecidableEq

/-- `overwriteFieldFromOverwriteCfg` (pulumiconfig.go:210-232): clone the
field, read the override namespace into the clone, and on success merge the
clone back over the field with `mergo.WithOverride`. A failed read or merge
leaves the field unchanged (the caller keeps its old value). -/
def overwriteFieldFromOverwriteCfg (store : Option Value) (field : Value) :
    Except OvErr Value :=
  match field with
  | .vStruct fs =>
    let clone := CloneStruct (.vStruct fs)
    match populateFieldFromConfig store clone with
    | .error _ => .error .readFailed
    | .ok overwriteVal =>
      match mergoMerge (.vStruct fs) overwriteVal with
      | .error e => .error (.mergeFailed e)
      | .ok merged => .ok merged
  | _ => .error .panicClone

/-- One field's tags, read by `GetConfig`'s loop (pulumiconfig.go:154-167):
`json`, `pulumiConfigNamespace`, `overrideConfigNamespace` (empty string =
not configured, as in Go) and whether `validate` is exactly `required`. -/
structure FieldSpec where
  jsonTag : String
  pulumiConfigNamespace : String
  overrideConfigNamespace : String
  required : Bool
  deriving DecidableEq

/-- The body of `GetConfig`'s per-field loop (pulumiconfig.go:154-177) for
one field: skip fields without a `json` tag; read the primary namespace;
if an override namespace is configured, run the override sequence; and
abort with an error naming the key only when the field is required, the
primary read failed, and the override sequence ran and also failed
(`errOverwrite` stays nil when no override namespace is configured). The Go
error text wraps the key in quotes; the quotes are elided here. -/
def processField (store : String → String → Option Value) (f : FieldSpec)
    (field : Value) : Except String Value :=
  if f.jsonTag = "" then .ok field
  else
    let res := populateFieldFromConfig (store f.pulumiConfigNamespace f.jsonTag) field
    let field1 := match res with | .ok v => v | .error _ => field
    let ovRes : Option (Except OvErr Value) :=
      if f.overrideConfigNamespace = "" then none
      else some (overwriteFieldFromOverwriteCfg
        (store f.overrideConfigNamespace f.jsonTag) field1)
    let field2 := match ovRes with | some (.ok v) => v | _ => field1
    match res, ovRes with
    | .error _, some (.error _) =>
      if f.required then .error ("error while reading pulumi config " ++ f.jsonTag)
      else .ok field2
    | _, _ => .ok field2

/-- `GetConfig`'s resolution loop over all fields (pulumiconfig.go:154-177),
before the validation pass: the first aborting field short-circuits the
whole call. -/
def getConfigLoop (store : String → String → Option Value) :
    List (FieldSpec × Value) → Except String (List Value)
  | [] => .ok []
  | (f, v) :: rest =>
    (processField store f v).bind fun v1 =>
      Except.map (v1 :: ·) (getConfigLoop store rest)

/-! ## Flat structs and the override-wins reading of the spec -/

/-- A non-struct (leaf) value. -/
def Value.isLeaf : Value → Bool
  | .vStruct _ => false
  | _ => true

/-- A struct type all of whose fields are leaves. -/
def Fields.flat : Fields → Bool
  | .nil => true
  | .cons _ v t => v.isLeaf && t.flat

/-- The spec's precedence formula (spec §8, "Precedence property"), stated
in the spec's own words for comparison with the code: field by field, the
override value when it is non-zero, else the primary value. -/
def overrideWins : Fields → Fields → Fields
  | .cons s a t1, .cons _ b t2 => .cons s (if b.isZero then a else b) (overrideWins t1 t2)
  | _, _ => .nil

mutual

/-- Every field of a value is settable (`CanSet`), recursively: the domain
on which `mergeFields` cannot hit `ErrFieldNotSettable`. -/
def Value.allSettable : Value → Bool
  | .vStruct fs => fs.allSettable
  | _ => true

/-- All fields settable, recursively. -/
def Fields.allSettable : Fields → Bool
  | .nil => true
  | .cons s v t => s && v.allSettable && t.allSettable

end

/-! ## Helper lemmas on the value universe -/

mutual

theorem Value.sameType_zeroOf : (v : Value) → v.sameType v.zeroOf = true
  | .vBool _ => rfl
  | .vInt _ => rfl
  | .vUint _ => rfl
  | .vFloat _ => rfl
  | .vString _ => rfl
  | .vPtr _ => rfl
  | .vStruct fs => Fields.sameTypes_zeroOf fs

theorem Fields.sameTypes_zeroOf : (fs : Fields) → fs.sameTypes fs.zeroOf = true
  | .nil => rfl
  | .cons s v t => by
    simp only [Fields.zeroOf, Fields.sameTypes, Bool.and_eq_true, beq_self_eq_true]
    exact ⟨⟨trivial, Value.sameType_zeroOf v⟩, Fields.sameTypes_zeroOf t⟩

end

mutual

theorem Value.sameType_zeroOf_left : (v : Value) → v.zeroOf.sameType v = true
  | .vBool _ => rfl
  | .vInt _ => rfl
  | .vUint _ => rfl
  | .vFloat _ => rfl
  | .vString _ => rfl
  | .vPtr _ => rfl
  | .vStruct fs => Fields.sameTypes_zeroOf_left fs

theorem Fields.sameTypes_zeroOf_left : (fs : Fields) → fs.zeroOf.sameTypes fs = true
  | .nil => rfl
  | .cons s v t => by
    simp only [Fields.zeroOf, Fields.sameTypes, Bool.and_eq_true, beq_self_eq_true]
    exact ⟨⟨trivial, Value.sameType_zeroOf_left v⟩, Fields.sameTypes_zeroOf_left t⟩

end

mutual

theorem Value.isZero_zeroOf : (v : Value) → v.zeroOf.isZero = true
  | .vBool _ => rfl
  | .vInt _ => rfl
  | .vUint _ => rfl
  | .vFloat _ => by simp [Value.zeroOf, Value.isZero]
  | .vString _ => rfl
  | .vPtr _ => rfl
  | .vStruct fs => Fields.zeroOf_isZero fs

theorem Fields.zeroOf_isZero : (fs : Fields) → fs.zeroOf.isZero = true
  | .nil => rfl
  | .cons s v t => by
    simp only [Fields.zeroOf, Fields.isZero, Bool.and_eq_true]
    exact ⟨Value.isZero_zeroOf v, Fields.zeroOf_isZero t⟩

end

mutual

theorem Value.zeroOf_of_isZero : (v : Value) → v.isZero = true → v.zeroOf = v
  | .vBool b, h => by
    simp only [Value.isZero, Bool.not_eq_eq_eq_not, Bool.not_true] at h
    simp [Value.zeroOf, h]
  | .vInt n, h => by
    simp only [Value.isZero, beq_iff_eq] at h
    simp [Value.zeroOf, h]
  | .vUint n, h => by
    simp only [Value.isZero, beq_iff_eq] at h
    simp [Value.zeroOf, h]
  | .vFloat q, h => by
    simp only [Value.isZero, beq_iff_eq] at h
    simp [Value.zeroOf, h]
  | .vString s, h => by
    simp only [Value.isZero, beq_iff_eq] at h
    simp [Value.zeroOf, h]
  | .vPtr a, h => by
    simp only [Value.isZero, Option.isNone_iff_eq_none] at h
    simp [Value.zeroOf, h]
  | .vStruct fs, h => by
    simp only [Value.zeroOf, Value.vStruct.injEq]
    exact Fields.zeroOf_eq_of_isZero fs h

theorem Fields.zeroOf_eq_of_isZero : (fs : Fields) → fs.isZero = true → fs.zeroOf = fs
  | .nil, _ => rfl
  | .cons s v t, h => by
    simp only [Fields.isZero, Bool.and_eq_true] at h
    simp only [Fields.zeroOf, Fields.cons.injEq, true_and]
    exact ⟨Value.zeroOf_of_isZero v h.1, Fields.zeroOf_eq_of_isZero t h.2⟩

end

mutual

theorem Value.zeroOf_idem : (v : Value) → v.zeroOf.zeroOf = v.zeroOf
  | .vBool _ => rfl
  | .vInt _ => rfl
  | .vUint _ => rfl
  | .vFloat _ => rfl
  | .vString _ => rfl
  | .vPtr _ => rfl
  | .vStruct fs => by
    simp only [Value.zeroOf, Value.vStruct.injEq]
    exact Fields.zeroOf_zeroOf fs

theorem Fields.zeroOf_zeroOf : (fs : Fields) → fs.zeroOf.zeroOf = fs.zeroOf
  | .nil => rfl
  | .cons s v t => by
    simp only [Fields.zeroOf, Fields.cons.injEq, true_and]
    exact ⟨Value.zeroOf_idem v, Fields.zeroOf_zeroOf t⟩

end

mutual

theorem Value.mergeFields_zero_right : (v : Value) → v.allSettable = true →
    v.isLeaf = false → mergeFields v v.zeroOf v.zeroOf = .ok v
  | .vStruct gs, h, _ => by
    have hst := Value.sameType_zeroOf (.vStruct gs)
    simp only [Value.zeroOf] at hst
    simp only [mergeFields, Value.zeroOf, hst, Bool.and_self, Bool.not_true,
      Bool.false_eq_true, if_false]
    rw [Fields.mergeFieldList_zero_right gs (by simpa [Value.allSettable] using h) 0]
    rfl
  | .vBool _, _, h => by cases h
  | .vInt _, _, h => by cases h
  | .vUint _, _, h => by cases h
  | .vFloat _, _, h => by cases h
  | .vString _, _, h => by cases h
  | .vPtr _, _, h => by cases h

theorem Fields.mergeFieldList_zero_right : (fs : Fields) → fs.allSettable = true →
    ∀ i, mergeFieldList i fs fs.zeroOf fs.zeroOf = .ok fs
  | .nil, _ => fun _ => rfl
  | .cons s v t, h => fun i => by
    simp only [Fields.allSettable, Bool.and_eq_true] at h
    obtain ⟨⟨hs, hv⟩, ht⟩ := h
    cases hs
    simp only [Fields.zeroOf, mergeFieldList, Bool.not_true, Bool.false_eq_true, if_false]
    cases v with
    | vStruct gs =>
      rw [Value.mergeFields_zero_right (.vStruct gs) hv rfl]
      simp only [Except.bind]
      rw [Fields.mergeFieldList_zero_right t ht (i + 1)]
      rfl
    | vBool b =>
      rw [show (Value.vBool b).zeroOf.isZero = true from Value.isZero_zeroOf _]
      simp only [Bool.not_true, Bool.false_eq_true, if_false]
      rw [Fields.mergeFieldList_zero_right t ht (i + 1)]
      rfl
    | vInt n =>
      rw [show (Value.vInt n).zeroOf.isZero = true from Value.isZero_zeroOf _]
      simp only [Bool.not_true, Bool.false_eq_true, if_false]
      rw [Fields.mergeFieldList_zero_right t ht (i + 1)]
      rfl
    | vUint n =>
      rw [show (Value.vUint n).zeroOf.isZero = true from Value.isZero_zeroOf _]
      simp only [Bool.not_true, Bool.false_eq_true, if_false]
      rw [Fields.mergeFieldList_zero_right t ht (i + 1)]
      rfl
    | vFloat q =>
      rw [show (Value.vFloat q).zeroOf.isZero = true from Value.isZero_zeroOf _]
      simp only [Bool.not_true, Bool.false_eq_true, if_false]
      rw [Fields.mergeFieldList_zero_right t ht (i + 1)]
      rfl
    | vString str =>
      rw [show (Value.vString str).zeroOf.isZero = true from Value.isZero_zeroOf _]
      simp only [Bool.not_true, Bool.false_eq_true, if_false]
      rw [Fields.mergeFieldList_zero_right t ht (i + 1)]
      rfl
    | vPtr a =>
      rw [show (Value.vPtr a).zeroOf.isZero = true from Value.isZero_zeroOf _]
      simp only [Bool.not_true, Bool.false_eq_true, if_false]
      rw [Fields.mergeFieldList_zero_right t ht (i + 1)]
      rfl

end

mutual

theorem Value.mergeFields_zero_left : (v : Value) → v.allSettable = true →
    v.isLeaf = false → mergeFields v.zeroOf v v.zeroOf.zeroOf = .ok v
  | .vStruct gs, h, _ => by
    have h1 := Value.sameType_zeroOf_left (.vStruct gs)
    have h2 := Value.sameType_zeroOf ((Value.vStruct gs).zeroOf)
    simp only [Value.zeroOf] at h1 h2
    simp only [mergeFields, Value.zeroOf, h1, h2, Bool.and_self, Bool.not_true,
      Bool.false_eq_true, if_false]
    rw [Fields.zeroOf_zeroOf gs]
    rw [Fields.mergeFieldList_zero_left gs (by simpa [Value.allSettable] using h) 0]
    rfl
  | .vBool _, _, h => by cases h
  | .vInt _, _, h => by cases h
  | .vUint _, _, h => by cases h
  | .vFloat _, _, h => by cases h
  | .vString _, _, h => by cases h
  | .vPtr _, _, h => by cases h

theorem Fields.mergeFieldList_zero_left : (fs : Fields) → fs.allSettable = true →
    ∀ i, mergeFieldList i fs.zeroOf fs fs.zeroOf = .ok fs
  | .nil, _ => fun _ => rfl
  | .cons s v t, h => fun i => by
    simp only [Fields.allSettable, Bool.and_eq_true] at h
    obtain ⟨⟨hs, hv⟩, ht⟩ := h
    cases hs
    simp only [Fields.zeroOf, mergeFieldList, Bool.not_true, Bool.false_eq_true, if_false]
    cases v with
    | vStruct gs =>
      have hm := Value.mergeFields_zero_left (.vStruct gs) hv rfl
      simp only [Value.zeroOf] at hm
      simp only [Value.zeroOf]
      rw [hm]
      simp only [Except.bind]
      rw [Fields.mergeFieldList_zero_left t ht (i + 1)]
      rfl
    | vBool b =>
      rcases hb : (Value.vBool b).isZero with hz | hz
      · simp only [Value.zeroOf, hb, Bool.not_false, if_true]
        rw [Fields.mergeFieldList_zero_left t ht (i + 1)]
        rfl
      · have := Value.zeroOf_of_isZero (.vBool b) hb
        simp only [Value.zeroOf] at this
        simp only [Value.zeroOf, hb, Bool.not_true, Bool.false_eq_true, if_false, this]
        rw [Fields.mergeFieldList_zero_left t ht (i + 1)]
        rfl
    | vInt n =>
      rcases hb : (Value.vInt n).isZero with hz | hz
      · simp only [Value.zeroOf, hb, Bool.not_false, if_true]
        rw [Fields.mergeFieldList_zero_left t ht (i + 1)]
        rfl
      · have := Value.zeroOf_of_isZero (.vInt n) hb
        simp only [Value.zeroOf] at this
        simp only [Value.zeroOf, hb, Bool.not_true, Bool.false_eq_true, if_false, this]
        rw [Fields.mergeFieldList_zero_left t ht (i + 1)]
        rfl
    | vUint n =>
      rcases hb : (Value.vUint n).isZero with hz | hz
      · simp only [Value.zeroOf, hb, Bool.not_false, if_true]
        rw [Fields.mergeFieldList_zero_left t ht (i + 1)]
        rfl
      · have := Value.zeroOf_of_isZero (.vUint n) hb
        simp only [Value.zeroOf] at this
        simp only [Value.zeroOf, hb, Bool.not_true, Bool.false_eq_true, if_false, this]
        rw [Fields.mergeFieldList_zero_left t ht (i + 1)]
        rfl
    | vFloat q =>
      rcases hb : (Value.vFloat q).isZero with hz | hz
      · simp only [Value.zeroOf, hb, Bool.not_false, if_true]
        rw [Fields.mergeFieldList_zero_left t ht (i + 1)]
        rfl
      · have := Value.zeroOf_of_isZero (.vFloat q) hb
        simp only [Value.zeroOf] at this
        simp only [Value.zeroOf, hb, Bool.not_true, Bool.false_eq_true, if_false, this]
        rw [Fields.mergeFieldList_zero_left t ht (i + 1)]
        rfl
    | vString str =>
      rcases hb : (Value.vString str).isZero with hz | hz
      · simp only [Value.zeroOf, hb, Bool.not_false, if_true]
        rw [Fields.mergeFieldList_zero_left t ht (i + 1)]
        rfl
      · have := Value.zeroOf_of_isZero (.vString str) hb
        simp only [Value.zeroOf] at this
        simp only [Value.zeroOf, hb, Bool.not_true, Bool.false_eq_true, if_false, this]
        rw [Fields.mergeFieldList_zero_left t ht (i + 1)]
        rfl
    | vPtr a =>
      rcases hb : (Value.vPtr a).isZero with hz | hz
      · simp only [Value.zeroOf, hb, Bool.not_false, if_true]
        rw [Fields.mergeFieldList_zero_left t ht (i + 1)]
        rfl
      · have := Value.zeroOf_of_isZero (.vPtr a) hb
        simp only [Value.zeroOf] at this
        simp only [Value.zeroOf, hb, Bool.not_true, Bool.false_eq_true, if_false, this]
        rw [Fields.mergeFieldList_zero_left t ht (i + 1)]
        rfl

end

theorem mergoMergeFields_flat : (as bs : Fields) → as.sameTypes bs = true →
    as.flat = true → mergoMergeFields as bs = .ok (overrideWins as bs)
  | .nil, .nil, _, _ => rfl
  | .cons s1 a t1, .cons s2 b t2, hty, hfl => by
    simp only [Fields.sameTypes, Bool.and_eq_true, beq_iff_eq] at hty
    obtain ⟨⟨hs, hab⟩, ht⟩ := hty
    simp only [Fields.flat, Bool.and_eq_true] at hfl
    obtain ⟨hleaf, htfl⟩ := hfl
    rw [overrideWins]
    cases a with
    | vStruct gs => simp [Value.isLeaf] at hleaf
    | vBool x =>
      cases b <;> simp only [Value.sameType, Bool.false_eq_true] at hab <;>
        simp only [mergoMergeFields, mergoMergeFields_flat t1 t2 ht htfl, Except.map]
    | vInt x =>
      cases b <;> simp only [Value.sameType, Bool.false_eq_true] at hab <;>
        simp only [mergoMergeFields, mergoMergeFields_flat t1 t2 ht htfl, Except.map]
    | vUint x =>
      cases b <;> simp only [Value.sameType, Bool.false_eq_true] at hab <;>
        simp only [mergoMergeFields, mergoMergeFields_flat t1 t2 ht htfl, Except.map]
    | vFloat x =>
      cases b <;> simp only [Value.sameType, Bool.false_eq_true] at hab <;>
        simp only [mergoMergeFields, mergoMergeFields_flat t1 t2 ht htfl, Except.map]
    | vString x =>
      cases b <;> simp only [Value.sameType, Bool.false_eq_true] at hab <;>
        simp only [mergoMergeFields, mergoMergeFields_flat t1 t2 ht htfl, Except.map]
    | vPtr x =>
      cases b <;> simp only [Value.sameType, Bool.false_eq_true] at hab <;>
        simp only [mergoMergeFields, mergoMergeFields_flat t1 t2 ht htfl, Except.map]
  | .nil, .cons _ _ _, hty, _ => by simp [Fields.sameTypes] at hty
  | .cons _ _ _, .nil, hty, _ => by simp [Fields.sameTypes] at hty

theorem overrideWins_zero : (as bs : Fields) → as.sameTypes bs = true →
    bs.isZero = true → overrideWins as bs = as
  | .nil, .nil, _, _ => rfl
  | .cons s1 a t1, .cons s2 b t2, hty, hz => by
    simp only [Fields.sameTypes, Bool.and_eq_true, beq_iff_eq] at hty
    simp only [Fields.isZero, Bool.and_eq_true] at hz
    rw [overrideWins, hz.1, if_pos rfl, overrideWins_zero t1 t2 hty.2 hz.2]
  | .nil, .cons _ _ _, hty, _ => by simp [Fields.sameTypes] at hty
  | .cons _ _ _, .nil, hty, _ => by simp [Fields.sameTypes] at hty

theorem populateFieldFromConfig_some (v d : Value) :
    populateFieldFromConfig (some v) d = .ok v := by
  cases d <;> rfl

theorem mergoMerge_flat (as bs : Fields) (hty : as.sameTypes bs = true)
    (hfl : as.flat = true) :
    mergoMerge (.vStruct as) (.vStruct bs) = .ok (.vStruct (overrideWins as bs)) := by
  have hs : (Value.vStruct as).sameType (.vStruct bs) = true := hty
  simp only [mergoMerge, hs, Bool.not_true, Bool.false_eq_true, if_false,
    mergoMergeFields_flat as bs hty hfl, Except.map]

theorem processField_override_present (store : String → String → Option Value)
    (f : FieldSpec) (init : Value) (as bs : Fields)
    (hjson : ¬f.jsonTag = "") (hov : ¬f.overrideConfigNamespace = "")
    (hprim : store f.pulumiConfigNamespace f.jsonTag = some (.vStruct as))
    (hover : store f.overrideConfigNamespace f.jsonTag = some (.vStruct bs))
    (hty : as.sameTypes bs = true) (hfl : as.flat = true) :
    processField store f init = .ok (.vStruct (overrideWins as bs)) := by
  simp only [processField, if_neg hjson, hprim, if_neg hov, hover,
    populateFieldFromConfig_some, overwriteFieldFromOverwriteCfg,
    mergoMerge_flat as bs hty hfl]

theorem processField_override_absent (store : String → String → Option Value)
    (f : FieldSpec) (init : Value) (as : Fields)
    (hjson : ¬f.jsonTag = "") (hov : ¬f.overrideConfigNamespace = "")
    (hprim : store f.pulumiConfigNamespace f.jsonTag = some (.vStruct as))
    (hover : store f.overrideConfigNamespace f.jsonTag = none) :
    processField store f init = .ok (.vStruct as) := by
  cases init <;>
    simp only [processField, if_neg hjson, hprim, if_neg hov, hover,
      populateFieldFromConfig, overwriteFieldFromOverwriteCfg, CloneStruct]

theorem defaultSetter_nonzero (dp : String) (v : Value) (h : v.isZero = false) :
    defaultSetter dp v = (v, true) := by
  by_cases hdp : dp = ""
  · simp [defaultSetter, hdp]
  · cases v with
    | vInt n =>
      simp only [Value.isZero, beq_eq_false_iff_ne, ne_eq] at h
      simp [defaultSetter, hdp, h]
    | vUint n =>
      simp only [Value.isZero, beq_eq_false_iff_ne, ne_eq] at h
      simp [defaultSetter, hdp, h]
    | vFloat q =>
      simp only [Value.isZero, beq_eq_false_iff_ne, ne_eq] at h
      simp [defaultSetter, hdp, h]
    | vString s =>
      simp only [Value.isZero, beq_eq_false_iff_ne, ne_eq] at h
      simp [defaultSetter, hdp, h]
    | vBool b => simp [defaultSetter, hdp]
    | vPtr a => simp [defaultSetter, hdp]
    | vStruct fs => simp [defaultSetter, hdp]

theorem envLoader_nonzero (ev : String) (lookupEnv : String → Option String) (cs : Bool)
    (v : Value) (h : v.isZero = false) : envLoader ev lookupEnv cs v = (v, true) := by
  by_cases h1 : ev = ""
  · simp [envLoader, h1]
  · cases cs with
    | false => simp [envLoader, h1]
    | true => simp [envLoader, h1, h]

theorem envLoader_snd (ev : String) (lookupEnv : String → Option String) (cs : Bool)
    (v : Value) : (envLoader ev lookupEnv cs v).2 = true := by
  unfold envLoader
  repeat' first
    | rfl
    | split

theorem envLoader_change (ev : String) (lookupEnv : String → Option String) (cs : Bool)
    (v : Value) (h : (envLoader ev lookupEnv cs v).1 ≠ v) :
    v.isZero = true ∧ ∃ s, lookupEnv ev = some s ∧ s ≠ "" := by
  by_cases h1 : ev = ""
  · simp [envLoader, h1] at h
  · cases cs with
    | false => simp [envLoader, h1] at h
    | true =>
      rcases h3 : v.isZero with h3v | h3v
      · simp [envLoader, h1, h3] at h
      · refine ⟨rfl, ?_⟩
        cases h4 : lookupEnv ev with
        | none => simp [envLoader, h1, h3, h4] at h
        | some s =>
          by_cases h5 : s = ""
          · simp [envLoader, h1, h3, h4, h5] at h
          · exact ⟨s, rfl, h5⟩

theorem cloneFields_get : (fs : Fields) → (i : Nat) → (s : Bool) → (v : Value) →
    fs.get? i = some (s, v) → (cloneFields fs).get? i = some (s, if s then v else v.zeroOf)
  | .cons s0 v0 t, 0, s, v, h => by
    simp only [Fields.get?, Option.some.injEq, Prod.mk.injEq] at h
    simp [cloneFields, Fields.get?, h.1, h.2]
  | .cons s0 v0 t, n + 1, s, v, h => by
    simp only [Fields.get?] at h
    simpa [cloneFields, Fields.get?] using cloneFields_get t n s v h
  | .nil, i, s, v, h => by simp [Fields.get?] at h

theorem processField_required_bothFail (store : String → String → Option Value)
    (f : FieldSpec) (init : Value) (e : OvErr)
    (hjson : ¬f.jsonTag = "") (hreq : f.required = true)
    (hp : populateFieldFromConfig (store f.pulumiConfigNamespace f.jsonTag) init
      = .error .missing)
    (hov : ¬f.overrideConfigNamespace = "")
    (ho : overwriteFieldFromOverwriteCfg (store f.overrideConfigNamespace f.jsonTag) init
      = .error e) :
    processField store f init = .error ("error while reading pulumi config " ++ f.jsonTag) := by
  simp only [processField, if_neg hjson, hp, if_neg hov, ho, hreq, if_true]

theorem processField_required_noOverride (store : String → String → Option Value)
    (f : FieldSpec) (init : Value)
    (hjson : ¬f.jsonTag = "") (hov : f.overrideConfigNamespace = "")
    (hp : populateFieldFromConfig (store f.pulumiConfigNamespace f.jsonTag) init
      = .error .missing) :
    processField store f init = .ok init := by
  simp only [processField, if_neg hjson, hp, hov, if_pos rfl, if_true]

/-! ## The claims -/

/-- C1: for a field resolved by `GetConfig` (primary read, then clone,
override read and override-wins merge), every leaf with a non-zero
override-namespace value `B` resolves to `B` and every leaf whose override
value is absent or zero-for-type resolves to the primary value `A`: the
resolved field is `overrideWins` of the two namespace values, it equals the
primary value when the override key is absent, and it equals the primary
value when the override value is zero-for-type. -/
theorem getConfig_overridePrecedence (store : String → String → Option Value)
    (f : FieldSpec) (init : Value) (as : Fields)
    (hjson : f.jsonTag ≠ "") (hov : f.overrideConfigNamespace ≠ "")
    (hprim : store f.pulumiConfigNamespace f.jsonTag = some (.vStruct as)) :
    (∀ bs, store f.overrideConfigNamespace f.jsonTag = some (.vStruct bs) →
        as.sameTypes bs = true → as.flat = true →
        processField store f init = .ok (.vStruct (overrideWins as bs))
        ∧ (bs.isZero = true → processField store f init = .ok (.vStruct as)))
    ∧ (store f.overrideConfigNamespace f.jsonTag = none →
        processField store f init = .ok (.vStruct as)) := by
  constructor
  · intro bs hover hty hfl
    have hmain := processField_override_present store f init as bs hjson hov hprim hover
      hty hfl
    refine ⟨hmain, fun hz => ?_⟩
    rw [hmain, overrideWins_zero as bs hty hz]
  · intro hover
    exact processField_override_absent store f init as hjson hov hprim hover

/-- C1 witness: the repository's own "overwrite field value" scenario — the
primary namespace sets `region` to `us-east-1`, the override namespace to
`us-west-1`, and the resolved field is `us-west-1`. -/
theorem getConfig_overridePrecedence_witness :
    processField
      (fun ns key =>
        if ns = "project" ∧ key = "digital_ocean" then
          some (.vStruct (.cons true (.vString "us-east-1") .nil))
        else if ns = "pulumi_esc" ∧ key = "digital_ocean" then
          some (.vStruct (.cons true (.vString "us-west-1") .nil))
        else none)
      (FieldSpec.mk "digital_ocean" "project" "pulumi_esc" true)
      (.vStruct (.cons true (.vString "") .nil))
      = .ok (.vStruct (.cons true (.vString "us-west-1") .nil)) := by
  have h := ((getConfig_overridePrecedence
      (fun ns key =>
        if ns = "project" ∧ key = "digital_ocean" then
          some (.vStruct (.cons true (.vString "us-east-1") .nil))
        else if ns = "pulumi_esc" ∧ key = "digital_ocean" then
          some (.vStruct (.cons true (.vString "us-west-1") .nil))
        else none)
      (FieldSpec.mk "digital_ocean" "project" "pulumi_esc" true)
      (.vStruct (.cons true (.vString "") .nil))
      (.cons true (.vString "us-east-1") .nil)
      (by decide) (by decide) (by decide)).1
      (.cons true (.vString "us-west-1") .nil)
      (by decide) (by decide) (by decide)).1
  exact h.trans (by decide)

/-- C2 counterexample: a required field (`validate:"required"`, json tag
`token`) with no `overrideConfigNamespace` whose primary read fails (key
absent in every namespace). The claim says `GetConfig` aborts the loop with
an error naming `token`; the loop in fact succeeds and moves on to the
validation pass, because `errOverwrite` stays nil when no override
namespace is configured and the abort needs `err != nil && errOverwrite !=
nil` (pulumiconfig.go:174). -/
theorem getConfig_requiredNoOverride_cex :
    getConfigLoop (fun _ _ => none)
      [(FieldSpec.mk "token" "project" "" true, .vString "")]
      = .ok [.vString ""] := by decide

/-- C2 amended: when a required field's primary read fails, `GetConfig`
aborts immediately with an error naming the field's source key only if an
override namespace is configured and the override sequence also fails; when
no override namespace is configured, the failed required read does not
abort the resolution loop (the field keeps its value and the failure is
left for the validation pass's `required` rule). -/
theorem getConfig_requiredFieldEnforcement (store : String → String → Option Value)
    (f : FieldSpec) (init : Value)
    (hjson : f.jsonTag ≠ "") (hreq : f.required = true)
    (hp : populateFieldFromConfig (store f.pulumiConfigNamespace f.jsonTag) init
      = .error .missing) :
    (∀ e, f.overrideConfigNamespace ≠ "" →
        overwriteFieldFromOverwriteCfg (store f.overrideConfigNamespace f.jsonTag) init
          = .error e →
        processField store f init
          = .error ("error while reading pulumi config " ++ f.jsonTag))
    ∧ (f.overrideConfigNamespace = "" → processField store f init = .ok init) := by
  constructor
  · intro e hov ho
    exact processField_required_bothFail store f init e hjson hreq hp hov ho
  · intro hov
    exact processField_required_noOverride store f init hjson hov hp

/-- C2 witness: the repository's "required field is missing" scenario — the
required `digital_ocean` field has override namespace `pulumi_esc`, both
namespaces lack the key, and resolution aborts naming the key. -/
theorem getConfig_requiredFieldEnforcement_witness :
    processField (fun _ _ => none)
      (FieldSpec.mk "digital_ocean" "project" "pulumi_esc" true)
      (.vStruct (.cons true (.vString "") .nil))
      = .error "error while reading pulumi config digital_ocean" := by
  have h := (getConfig_requiredFieldEnforcement (fun _ _ => none)
      (FieldSpec.mk "digital_ocean" "project" "pulumi_esc" true)
      (.vStruct (.cons true (.vString "") .nil))
      (by decide) (by decide) (by decide)).1 .readFailed (by decide) (by decide)
  exact h

/-- C3 counterexample: a field set (non-zero) by the primary namespace —
`region = eu-west-1` — whose override namespace sets `region = us-east-1`.
The claim says the primary value is never replaced; resolution in fact
returns the override value, because `overwriteFieldFromOverwriteCfg` merges
with `mergo.WithOverride` (pulumiconfig.go:227), where the override operand
wins (the repository's "overwrite field value" test asserts exactly this). -/
theorem precedence_primaryNeverReplaced_cex :
    processField
      (fun ns key =>
        if ns = "project" ∧ key = "digital_ocean" then
          some (.vStruct (.cons true (.vString "eu-west-1") .nil))
        else if ns = "esc" ∧ key = "digital_ocean" then
          some (.vStruct (.cons true (.vString "us-east-1") .nil))
        else none)
      (FieldSpec.mk "digital_ocean" "project" "esc" false)
      (.vStruct (.cons true (.vString "") .nil))
      = .ok (.vStruct (.cons true (.vString "us-east-1") .nil))
    ∧ Value.vString "us-east-1" ≠ .vString "eu-west-1" := by decide

/-- C3 amended: the end-to-end precedence is **override-namespace value
(when non-zero for its type) > primary-namespace value > default rule > env
rule**: a non-zero override leaf replaces the primary leaf (and a
zero-for-type override leaf keeps it); any non-zero resolved value survives
the built-in `default` and `env` rules untouched; and a value the `default`
rule fills in (when non-zero) survives the `env` rule. -/
theorem precedence_endToEnd (store : String → String → Option Value)
    (f : FieldSpec) (init : Value) (as bs : Fields)
    (dp ev : String) (lookupEnv : String → Option String) (cs : Bool)
    (hjson : f.jsonTag ≠ "") (hov : f.overrideConfigNamespace ≠ "")
    (hprim : store f.pulumiConfigNamespace f.jsonTag = some (.vStruct as))
    (hover : store f.overrideConfigNamespace f.jsonTag = some (.vStruct bs))
    (hty : as.sameTypes bs = true) (hfl : as.flat = true) :
    processField store f init = .ok (.vStruct (overrideWins as bs))
    ∧ (∀ v : Value, v.isZero = false → runBuiltinRules dp ev lookupEnv cs v = v)
    ∧ (∀ v w : Value, (defaultSetter dp v).1 = w → w.isZero = false →
        runBuiltinRules dp ev lookupEnv cs v = w) := by
  refine ⟨processField_override_present store f init as bs hjson hov hprim hover hty hfl,
    fun v hv => ?_, fun v w hd hw => ?_⟩
  · rw [runBuiltinRules, defaultSetter_nonzero dp v hv,
      (envLoader_nonzero ev lookupEnv cs v hv :)]
  · rw [runBuiltinRules, hd, (envLoader_nonzero ev lookupEnv cs w hw :)]

/-- C3 witness: primary `us-east-1`, override `us-west-1`, a `default=x`
rule and an `env=E` rule with the variable set: the resolved leaf is the
override value, and a non-zero value is untouched by the two rules. -/
theorem precedence_endToEnd_witness :
    processField
      (fun ns key =>
        if ns = "project" ∧ key = "do" then
          some (.vStruct (.cons true (.vString "us-east-1") .nil))
        else if ns = "esc" ∧ key = "do" then
          some (.vStruct (.cons true (.vString "us-west-1") .nil))
        else none)
      (FieldSpec.mk "do" "project" "esc" false)
      (.vStruct (.cons true (.vString "") .nil))
      = .ok (.vStruct (overrideWins (.cons true (.vString "us-east-1") .nil)
          (.cons true (.vString "us-west-1") .nil)))
    ∧ (∀ v : Value, v.isZero = false →
        runBuiltinRules "x" "E" (fun _ => some "7") true v = v)
    ∧ (∀ v w : Value, (defaultSetter "x" v).1 = w → w.isZero = false →
        runBuiltinRules "x" "E" (fun _ => some "7") true v = w) :=
  precedence_endToEnd
    (fun ns key =>
      if ns = "project" ∧ key = "do" then
        some (.vStruct (.cons true (.vString "us-east-1") .nil))
      else if ns = "esc" ∧ key = "do" then
        some (.vStruct (.cons true (.vString "us-west-1") .nil))
      else none)
    (FieldSpec.mk "do" "project" "esc" false)
    (.vStruct (.cons true (.vString "") .nil))
    (.cons true (.vString "us-east-1") .nil)
    (.cons true (.vString "us-west-1") .nil)
    "x" "E" (fun _ => some "7") true
    (by decide) (by decide) (by decide) (by decide) (by decide) (by decide)

/-- C4: merge identity — for any struct value `X` (with settable fields,
the domain where the merger does not fail with `ErrFieldNotSettable`),
`mergeObjects(&X, &zeroValue) == X` and `mergeObjects(&zeroValue, &X) == X`:
the zero value is a two-sided identity of the field-wise merge. -/
theorem merge_zeroValue_identity (fs : Fields) (h : fs.allSettable = true) :
    mergeObjects (some (.ptrTo (.vStruct fs))) (some (.ptrTo ((Value.vStruct fs).zeroOf)))
      = .ok (.vStruct fs)
    ∧ mergeObjects (some (.ptrTo ((Value.vStruct fs).zeroOf))) (some (.ptrTo (.vStruct fs)))
      = .ok (.vStruct fs) := by
  constructor
  · have hs := Value.sameType_zeroOf (.vStruct fs)
    simp only [mergeObjects, Iface.sameType, hs, Bool.not_true, Bool.false_eq_true,
      if_false]
    exact Value.mergeFields_zero_right (.vStruct fs) h rfl
  · have hs := Value.sameType_zeroOf_left (.vStruct fs)
    simp only [mergeObjects, Iface.sameType, hs, Bool.not_true, Bool.false_eq_true,
      if_false]
    exact Value.mergeFields_zero_left (.vStruct fs) h rfl

/-- C4 witness: `X = {Region: "us-east-1", OrgID: 123}`; merging `X` with
its zero value, in either order, returns `X`. -/
theorem merge_zeroValue_identity_witness :
    mergeObjects
        (some (.ptrTo (.vStruct (.cons true (.vString "us-east-1")
          (.cons true (.vInt 123) .nil)))))
        (some (.ptrTo ((Value.vStruct (.cons true (.vString "us-east-1")
          (.cons true (.vInt 123) .nil))).zeroOf)))
      = .ok (.vStruct (.cons true (.vString "us-east-1") (.cons true (.vInt 123) .nil)))
    ∧ mergeObjects
        (some (.ptrTo ((Value.vStruct (.cons true (.vString "us-east-1")
          (.cons true (.vInt 123) .nil))).zeroOf)))
        (some (.ptrTo (.vStruct (.cons true (.vString "us-east-1")
          (.cons true (.vInt 123) .nil)))))
      = .ok (.vStruct (.cons true (.vString "us-east-1") (.cons true (.vInt 123) .nil))) :=
  merge_zeroValue_identity
    (.cons true (.vString "us-east-1") (.cons true (.vInt 123) .nil)) (by decide)

/-- C5: the built-in `env` rule is best-effort and never a validation
failure: it always reports pass, and it changes the field only when the
field is still zero-for-type and the named environment variable is present
with a non-empty value (absent variables, empty values and unparsable
values all fall through with the field unchanged). -/
theorem envRule_bestEffort (ev : String) (lookupEnv : String → Option String)
    (cs : Bool) (v : Value) :
    (envLoader ev lookupEnv cs v).2 = true
    ∧ ((envLoader ev lookupEnv cs v).1 ≠ v →
        v.isZero = true ∧ ∃ s, lookupEnv ev = some s ∧ s ≠ "") :=
  ⟨envLoader_snd ev lookupEnv cs v, envLoader_change ev lookupEnv cs v⟩

/-- C6: the built-in `default` rule never overwrites a non-zero value: on
any field whose value is non-zero for its type it returns the field
unchanged (and passes). -/
theorem defaultRule_onlyOnZero (dp : String) (v : Value) (h : v.isZero = false) :
    defaultSetter dp v = (v, true) :=
  defaultSetter_nonzero dp v h

/-- C6 witness: a `default=7` rule on an int field already holding 5 leaves
it at 5. -/
theorem defaultRule_onlyOnZero_witness : defaultSetter "7" (.vInt 5) = (.vInt 5, true) :=
  defaultRule_onlyOnZero "7" (.vInt 5) (by decide)

/-- C7: `mergeObjects`' type gate — two non-nil inputs of different
concrete types fail with `ErrDifferentTypes` (the `TypeMismatch` error),
and an invocation gets past the type check only when the two types are
identical. (Nil inputs fail earlier with `ErrNilObjects` and have no
concrete type to compare.) -/
theorem mergeObjects_typeCheck (i1 i2 : Iface) :
    (i1.sameType i2 = false →
      mergeObjects (some i1) (some i2) = .error .differentTypes)
    ∧ (mergeObjects (some i1) (some i2) ≠ .error .differentTypes →
      i1.sameType i2 = true) := by
  constructor
  · intro h
    simp [mergeObjects, h]
  · intro h
    rcases hs : i1.sameType i2 with hv | hv
    · exact absurd (by simp [mergeObjects, hs]) h
    · rfl

/-- C8: `mergeObjects` is pure — run on a heap with its two pointer
arguments as addresses of live cells, it leaves every pre-existing cell
(its inputs included) unchanged, and when it returns a result the result is
a fresh address distinct from both inputs. -/
theorem mergeObjects_pure (hp : List Value) (a1 a2 : Nat)
    (h1 : a1 < hp.length) (h2 : a2 < hp.length) :
    (∀ a, a < hp.length → ((mergeObjectsH hp a1 a2).1)[a]? = hp[a]?)
    ∧ (∀ n, (mergeObjectsH hp a1 a2).2 = .ok n → n ≠ a1 ∧ n ≠ a2) := by
  have e1 : hp[a1]? = some hp[a1] := List.getElem?_eq_getElem h1
  have e2 : hp[a2]? = some hp[a2] := List.getElem?_eq_getElem h2
  have heval : mergeObjectsH hp a1 a2 =
      (if !(hp[a1]).sameType hp[a2] then (hp, .error .differentTypes)
       else
         match mergeFields hp[a1] hp[a2] (hp[a1]).zeroOf with
         | .ok m => (hp ++ [m], .ok hp.length)
         | .error e => (hp ++ [(hp[a1]).zeroOf], .error e)) := by
    unfold mergeObjectsH
    rw [e1, e2]
  constructor
  · intro a ha
    rw [heval]
    rcases hs : (hp[a1]).sameType hp[a2] with hv | hv
    · simp [hs]
    · rcases hm : mergeFields hp[a1] hp[a2] (hp[a1]).zeroOf with err | ok
      · simp only [hs, Bool.not_true, Bool.false_eq_true, if_false, hm]
        exact List.getElem?_append_left ha
      · simp only [hs, Bool.not_true, Bool.false_eq_true, if_false, hm]
        exact List.getElem?_append_left ha
  · intro n hn
    rw [heval] at hn
    rcases hs : (hp[a1]).sameType hp[a2] with hv | hv
    · rw [hs] at hn
      simp at hn
    · rw [hs] at hn
      rcases hm : mergeFields hp[a1] hp[a2] (hp[a1]).zeroOf with err | ok
      · rw [hm] at hn
        simp at hn
      · rw [hm] at hn
        simp only [Bool.not_true, Bool.false_eq_true, if_false, Except.ok.injEq] at hn
        subst hn
        exact ⟨Nat.ne_of_gt h1, Nat.ne_of_gt h2⟩

/-- C8 witness: a two-cell heap; merging cell 0 with cell 1 leaves both
cells unchanged and returns a fresh third address. -/
theorem mergeObjects_pure_witness :
    (∀ a, a < ([Value.vStruct (.cons true (.vInt 1) .nil),
        Value.vStruct (.cons true (.vInt 2) .nil)] : List Value).length →
      ((mergeObjectsH [Value.vStruct (.cons true (.vInt 1) .nil),
        Value.vStruct (.cons true (.vInt 2) .nil)] 0 1).1)[a]?
        = ([Value.vStruct (.cons true (.vInt 1) .nil),
        Value.vStruct (.cons true (.vInt 2) .nil)] : List Value)[a]?)
    ∧ (∀ n, (mergeObjectsH [Value.vStruct (.cons true (.vInt 1) .nil),
        Value.vStruct (.cons true (.vInt 2) .nil)] 0 1).2 = .ok n →
        n ≠ 0 ∧ n ≠ 1) :=
  mergeObjects_pure
    [Value.vStruct (.cons true (.vInt 1) .nil), Value.vStruct (.cons true (.vInt 2) .nil)]
    0 1 (by decide) (by decide)

/-- Field access through a struct value agrees with `Fields.get?`. -/
theorem structFieldGo_get : (fs : Fields) → (i : Nat) →
    structField.go fs i = (fs.get? i).map Prod.snd
  | .cons _ _ _, 0 => rfl
  | .cons _ _ t, n + 1 => structFieldGo_get t n
  | .nil, 0 => rfl
  | .nil, _ + 1 => rfl

/-- C9 counterexample: `X = {P: *int}` with `P` pointing at a cell holding
5. `CloneStruct(X)` copies the pointer itself, so the clone's `P` is the
same address as `X.P`; writing 7 through the clone's pointer makes the
value reachable through the original's `P` read 7 instead of 5 — the copy
is not storage-independent and writes through it do alter what the
original value reaches. -/
theorem cloneStruct_storageIndependent_cex :
    structField (CloneStruct (.vStruct (.cons true (.vPtr (some 0)) .nil))) 0
      = some (.vPtr (some 0))
    ∧ readPtr (writePtr [Value.vInt 5] (.vPtr (some 0)) (.vInt 7)) (.vPtr (some 0))
      = some (.vInt 7)
    ∧ readPtr [Value.vInt 5] (.vPtr (some 0)) = some (.vInt 5)
    ∧ Value.vInt 7 ≠ Value.vInt 5 := by decide

/-- C9 amended: `CloneStruct` is a shallow per-field copy — every settable
(exported) field of the clone equals the corresponding field of the
original and every non-settable field is left at its zero value, so the
top-level value is fresh but pointer-typed fields keep the same referent,
and storage reachable through them stays shared with the original. -/
theorem cloneStruct_shallowCopy (fs : Fields) (i : Nat) (s : Bool) (v : Value)
    (h : fs.get? i = some (s, v)) :
    structField (CloneStruct (.vStruct fs)) i = some (if s then v else v.zeroOf) := by
  show structField.go (cloneFields fs) i = _
  rw [structFieldGo_get, cloneFields_get fs i s v h]
  rfl

/-- C9 witness: a two-field struct with an exported pointer field and a
non-settable int field — the clone's field 0 is the same pointer, its
field 1 is reset to zero. -/
theorem cloneStruct_shallowCopy_witness :
    structField (CloneStruct (.vStruct (.cons true (.vPtr (some 3))
        (.cons false (.vInt 9) .nil)))) 0 = some (.vPtr (some 3))
    ∧ structField (CloneStruct (.vStruct (.cons true (.vPtr (some 3))
        (.cons false (.vInt 9) .nil)))) 1 = some (.vInt 0) :=
  ⟨cloneStruct_shallowCopy (.cons true (.vPtr (some 3)) (.cons false (.vInt 9) .nil))
      0 true (.vPtr (some 3)) (by decide),
    (cloneStruct_shallowCopy (.cons true (.vPtr (some 3)) (.cons false (.vInt 9) .nil))
      1 false (.vInt 9) (by decide)).trans (by decide)⟩

/-- C10: on a bool field the built-in `default` rule is a no-op that always
passes — even with a default parameter supplied and the field at `false`
(zero-for-type) it assigns nothing (validators.go:205-206) — while the
`env` rule does parse and assign boolean values (validators.go:303-307). -/
theorem defaultRule_boolNoop (dp : String) (b : Bool) :
    defaultSetter dp (.vBool b) = (.vBool b, true)
    ∧ envLoader "MY_BOOL" (fun n => if n = "MY_BOOL" then some "true" else none) true
        (.vBool false) = (.vBool true, true) := by
  refine ⟨?_, by decide⟩
  by_cases h : dp = ""
  · simp [defaultSetter, h]
  · simp [defaultSetter, h]
